import Mathlib

/-!
Verification of the core logic of `src/app.py` (Hindi word counter).

The program's core is `count_hindi_words_in_pdf`: open raw bytes as a PDF
with PyMuPDF (`fitz`), extract each page's text, and count the matches of
`HINDI_WORD_REGEX = re.compile(r'[ऀ-ॿ]+')` via `findall`, summing
over pages with an accumulator loop.  The upload handler
`handle_pdf_upload` first checks that the filename ends in ".pdf"
(case-insensitively) and otherwise reports an invalid-file-type error
without touching the bytes.

PyMuPDF is a third-party library whose sources are not part of this
repository, so PDF parsing and text extraction are modelled abstractly as
a `FitzParser`: a function from the byte buffer to either a parse error or
the list of per-page extracted texts in document order, as the spec
describes them.
-/

namespace HindiWordCounter

/-- The character class `[ऀ-ॿ]` of `HINDI_WORD_REGEX`
(src/app.py line 12): the inclusive Devanagari block. -/
def isDevanagari (c : Char) : Bool :=
  0x900 ≤ c.toNat && c.toNat ≤ 0x97F

/-- `re.findall` for the pattern `[ऀ-ॿ]+`: a single left-to-right
scan that accumulates the current run of in-class characters (in reverse)
and emits it, maximal, as soon as the run ends.  Matches are greedy and
non-overlapping, exactly as Python's `re.findall` behaves on this
character-class-plus pattern. -/
def findallAux (current : List Char) : List Char → List (List Char)
  | [] => if current.isEmpty then [] else [current.reverse]
  | c :: rest =>
    if isDevanagari c then
      findallAux (c :: current) rest
    else if current.isEmpty then
      findallAux [] rest
    else
      current.reverse :: findallAux [] rest

/-- `HINDI_WORD_REGEX.findall(text)` on an explicit character list. -/
def hindiFindall (s : List Char) : List (List Char) :=
  findallAux [] s

/-- `len(HINDI_WORD_REGEX.findall(text))` — the per-page counting step of
src/app.py lines 31–32. -/
def countHindiWordsInText (text : String) : Nat :=
  (hindiFindall text.data).length

/-- Modelled from the spec: PyMuPDF's `fitz.open(stream=..., filetype="pdf")`
and `page.get_text()` are external library code, absent from src/.  Per the
spec, opening the byte buffer either fails with a ParseError-equivalent
(when the buffer is not a structurally valid PDF) or yields, for each page
in document order, that page's extracted plain text. -/
structure FitzParser where
  parse : List Nat → Except String (List String)

/-- `count_hindi_words_in_pdf` (src/app.py lines 14–33): open the buffer as
a PDF (propagating a parse failure), then loop over the pages accumulating
`word_count += len(HINDI_WORD_REGEX.findall(page.get_text()))`. -/
def count_hindi_words_in_pdf (P : FitzParser) (pdf_content : List Nat) :
    Except String Nat :=
  match P.parse pdf_content with
  | .error e => .error e
  | .ok doc => .ok (doc.foldl (fun word_count page =>
      word_count + countHindiWordsInText page) 0)

/-- Modelled from the spec: "maximal contiguous runs of one or more code
points in the inclusive range U+0900–U+097F"; counts the positions where
such a maximal run starts (an in-class character whose predecessor, tracked
by the flag, is not in class). -/
def maximalRunCountAux (prevDev : Bool) : List Char → Nat
  | [] => 0
  | c :: rest =>
    (if isDevanagari c && !prevDev then 1 else 0) +
      maximalRunCountAux (isDevanagari c) rest

/-- Modelled from the spec: the number of maximal non-overlapping contiguous
Devanagari runs in a page's extracted text. -/
def maximalRunCount (s : List Char) : Nat :=
  maximalRunCountAux false s

/-- The outcome of `handle_pdf_upload` as far as the core result is
concerned: the invalid-file-type error page, the could-not-process error
page, or the page showing the word count. -/
inductive UploadOutcome where
  | invalidFileType
  | processingError
  | counted (filename : String) (wordCount : Nat)
deriving DecidableEq

/-- `handle_pdf_upload` (src/app.py lines 53–78): if the lower-cased
filename does not end in ".pdf", render the invalid-file-type error without
reading the bytes or calling the counter; otherwise count the words in the
uploaded bytes, turning any exception into the could-not-process error.
(Python's `str.lower` is Unicode-aware; ASCII lowering is faithful for the
".pdf" suffix test.) -/
def handle_pdf_upload (P : FitzParser) (filename : String)
    (file_bytes : List Nat) : UploadOutcome :=
  if !(".pdf".data.isSuffixOf (filename.data.map Char.toLower)) then
    .invalidFileType
  else
    match count_hindi_words_in_pdf P file_bytes with
    | .ok total_words => .counted filename total_words
    | .error _ => .processingError

/-- A parser standing for a fixed already-extracted document: it accepts any
byte buffer and yields the given pages.  Used to instantiate witnesses. -/
def constParser (pages : List String) : FitzParser :=
  ⟨fun _ => .ok pages⟩

/-- A parser standing for a buffer that is not a structurally valid PDF:
opening always fails. -/
def failParser : FitzParser :=
  ⟨fun _ => .error "cannot open broken document"⟩

/- ### Helper lemmas -/

/-- Emitted-run count of the scanning loop, against the spec-side
run-start count: a pending nonempty `current` contributes one run that the
flag marks as already begun. -/
lemma findallAux_length (s : List Char) : ∀ current : List Char,
    (findallAux current s).length =
      (if current.isEmpty then 0 else 1) +
        maximalRunCountAux (!current.isEmpty) s := by
  induction s with
  | nil =>
    intro current
    cases current <;> simp [findallAux, maximalRunCountAux]
  | cons c rest ih =>
    intro current
    by_cases hc : isDevanagari c
    · cases current <;>
        simp [findallAux, maximalRunCountAux, hc, ih]
    · cases current <;>
        simp [findallAux, maximalRunCountAux, hc, ih,
          Nat.add_comm, Nat.add_left_comm]

/-- The regex-based per-page count equals the spec-side maximal-run count. -/
lemma countHindiWordsInText_eq_maximalRunCount (text : String) :
    countHindiWordsInText text = maximalRunCount text.data := by
  simp [countHindiWordsInText, hindiFindall, maximalRunCount,
    findallAux_length]

/-- The accumulator loop over pages computes the sum of the per-page
counts. -/
lemma foldl_count_eq_sum (pages : List String) :
    pages.foldl (fun word_count page =>
        word_count + countHindiWordsInText page) 0 =
      (pages.map (fun page => countHindiWordsInText page)).sum := by
  have h : ∀ (l : List String) (n : Nat),
      l.foldl (fun word_count page =>
        word_count + countHindiWordsInText page) n =
        n + (l.map (fun page => countHindiWordsInText page)).sum := by
    intro l
    induction l with
    | nil => intro n; simp
    | cons p t ih =>
      intro n
      simp [ih, Nat.add_assoc]
  simpa using h pages 0

/-- A text with no in-class character has no maximal run. -/
lemma maximalRunCountAux_eq_zero (s : List Char)
    (h : ∀ c ∈ s, isDevanagari c = false) :
    ∀ prev, maximalRunCountAux prev s = 0 := by
  induction s with
  | nil => intro prev; simp [maximalRunCountAux]
  | cons c rest ih =>
    intro prev
    have hc : isDevanagari c = false := h c (by simp)
    have hrest : ∀ d ∈ rest, isDevanagari d = false := by
      intro d hd; exact h d (by simp [hd])
    simp [maximalRunCountAux, hc, ih hrest]

/- ### Claims -/

/-- C1: for every byte buffer that opens as a valid PDF,
`count_hindi_words_in_pdf` returns the sum, over all pages in document
order, of the number of maximal non-overlapping contiguous runs of one or
more code points in U+0900–U+097F in that page's extracted text, each run
counting as exactly one word. -/
theorem c1_count_is_sum_of_maximal_runs (P : FitzParser)
    (pdf_content : List Nat) (pages : List String)
    (hparse : P.parse pdf_content = .ok pages) :
    count_hindi_words_in_pdf P pdf_content =
      .ok ((pages.map (fun page => maximalRunCount page.data)).sum) := by
  simp only [count_hindi_words_in_pdf, hparse]
  rw [foldl_count_eq_sum]
  simp only [countHindiWordsInText_eq_maximalRunCount]

/-- Witness for C1 at a concrete two-page document. -/
theorem c1_witness :
    count_hindi_words_in_pdf (constParser ["नमस्ते दुनिया", "hi राम"]) [37] =
      .ok (([("नमस्ते दुनिया" : String), "hi राम"].map
        (fun page => maximalRunCount page.data)).sum) ∧
    ([("नमस्ते दुनिया" : String), "hi राम"].map
        (fun page => maximalRunCount page.data)).sum = 3 :=
  ⟨c1_count_is_sum_of_maximal_runs (constParser ["नमस्ते दुनिया", "hi राम"])
    [37] ["नमस्ते दुनिया", "hi राम"] rfl, by decide⟩

/-- C2 counterexample: for the extracted text "राम।" the count is 1, but
the danda U+0964 is itself in the scanned block, so the matched run is the
whole string "राम।" — the punctuation is NOT excluded from the run. -/
theorem c2_counterexample :
    countHindiWordsInText "राम।" = 1 ∧
    hindiFindall "राम।".data = ["राम।".data] ∧
    hindiFindall "राम।".data ≠ ["राम".data] := by
  refine ⟨by decide, by decide, by decide⟩

/-- C2 (amended): for a PDF whose extracted text is "राम।" the count is
exactly 1.  Punctuation outside the Devanagari block, as in "राम.", is
excluded from the matched run, but the danda U+0964 lies inside the
scanned block and is included in the run. -/
theorem c2_single_run_with_punctuation (P : FitzParser)
    (pdf_content : List Nat)
    (hparse : P.parse pdf_content = .ok ["राम।"]) :
    count_hindi_words_in_pdf P pdf_content = .ok 1 ∧
    hindiFindall "राम।".data = ["राम।".data] ∧
    hindiFindall "राम.".data = ["राम".data] := by
  refine ⟨?_, by decide, by decide⟩
  simp only [count_hindi_words_in_pdf, hparse]
  exact congrArg Except.ok (by decide)

/-- Witness for C2 (amended) at a concrete parser. -/
theorem c2_witness :
    count_hindi_words_in_pdf (constParser ["राम।"]) [] = .ok 1 ∧
    hindiFindall "राम।".data = ["राम।".data] ∧
    hindiFindall "राम.".data = ["राम".data] :=
  c2_single_run_with_punctuation (constParser ["राम।"]) [] rfl

/-- C3: `count_hindi_words_in_pdf` fails exactly when opening the byte
buffer as a PDF fails (the error propagated unchanged), and whenever the
buffer parses the function succeeds — the parse failure is its only
failure mode. -/
theorem c3_parse_error_only_failure (P : FitzParser)
    (pdf_content : List Nat) :
    (∀ e, count_hindi_words_in_pdf P pdf_content = .error e ↔
        P.parse pdf_content = .error e) ∧
    (∀ pages, P.parse pdf_content = .ok pages →
        ∃ n, count_hindi_words_in_pdf P pdf_content = .ok n) := by
  constructor
  · intro e
    cases hp : P.parse pdf_content <;>
      simp [count_hindi_words_in_pdf, hp]
  · intro pages hp
    refine ⟨pages.foldl (fun word_count page =>
      word_count + countHindiWordsInText page) 0, ?_⟩
    simp [count_hindi_words_in_pdf, hp]

/-- Witness for C3: a buffer that fails to open propagates the error, and
a buffer that opens yields a count. -/
theorem c3_witness :
    count_hindi_words_in_pdf failParser [104, 105] =
      .error "cannot open broken document" ∧
    ∃ n, count_hindi_words_in_pdf (constParser []) [] = .ok n :=
  ⟨((c3_parse_error_only_failure failParser [104, 105]).1
      "cannot open broken document").mpr rfl,
    (c3_parse_error_only_failure (constParser []) []).2 [] rfl⟩

/-- C4: when the buffer parses and no page's extracted text contains a
code point in U+0900–U+097F, the count is 0; and every successful result
is a non-negative integer. -/
theorem c4_no_devanagari_gives_zero (P : FitzParser)
    (pdf_content : List Nat) (pages : List String)
    (hparse : P.parse pdf_content = .ok pages)
    (hnone : ∀ page ∈ pages, ∀ c ∈ page.data, isDevanagari c = false) :
    count_hindi_words_in_pdf P pdf_content = .ok 0 ∧
    ∀ n, count_hindi_words_in_pdf P pdf_content = .ok n → 0 ≤ n := by
  refine ⟨?_, fun n _ => Nat.zero_le n⟩
  have hzero : ∀ page ∈ pages, countHindiWordsInText page = 0 := by
    intro page hpage
    rw [countHindiWordsInText_eq_maximalRunCount]
    exact maximalRunCountAux_eq_zero page.data (hnone page hpage) false
  simp only [count_hindi_words_in_pdf, hparse, foldl_count_eq_sum]
  have : pages.map (fun page => countHindiWordsInText page) =
      pages.map (fun _ => 0) := List.map_congr_left hzero
  simp [this]

/-- Witness for C4 on a Latin-only two-page document. -/
theorem c4_witness :
    count_hindi_words_in_pdf (constParser ["hello world", ""]) [1, 2] =
      .ok 0 :=
  (c4_no_devanagari_gives_zero (constParser ["hello world", ""]) [1, 2]
    ["hello world", ""] rfl (by decide)).1

/-- C5: for a PDF whose extracted text is "हैलो hello वर्ल्ड", only the two
Devanagari runs are counted and the result is exactly 2. -/
theorem c5_mixed_script_counts_two (P : FitzParser)
    (pdf_content : List Nat)
    (hparse : P.parse pdf_content = .ok ["हैलो hello वर्ल्ड"]) :
    count_hindi_words_in_pdf P pdf_content = .ok 2 := by
  simp only [count_hindi_words_in_pdf, hparse]
  exact congrArg Except.ok (by decide)

/-- Witness for C5 at a concrete parser. -/
theorem c5_witness :
    count_hindi_words_in_pdf (constParser ["हैलो hello वर्ल्ड"]) [] = .ok 2 :=
  c5_mixed_script_counts_two (constParser ["हैलो hello वर्ल्ड"]) [] rfl

/-- C6: for every PDF that parses, the total equals the sum of the
per-page counting step applied to each page's text independently — the
accumulator loop is a homomorphism over the sequence of page texts. -/
theorem c6_total_is_sum_of_page_counts (P : FitzParser)
    (pdf_content : List Nat) (pages : List String)
    (hparse : P.parse pdf_content = .ok pages) :
    count_hindi_words_in_pdf P pdf_content =
      .ok ((pages.map (fun page => countHindiWordsInText page)).sum) := by
  simp only [count_hindi_words_in_pdf, hparse, foldl_count_eq_sum]

/-- Witness for C6 on a concrete three-page document. -/
theorem c6_witness :
    count_hindi_words_in_pdf (constParser ["राम", "x", "सीता राम"]) [9] =
      .ok (([("राम" : String), "x", "सीता राम"].map
        (fun page => countHindiWordsInText page)).sum) ∧
    ([("राम" : String), "x", "सीता राम"].map
        (fun page => countHindiWordsInText page)).sum = 3 :=
  ⟨c6_total_is_sum_of_page_counts (constParser ["राम", "x", "सीता राम"]) [9]
    ["राम", "x", "सीता राम"] rfl, by decide⟩

/-- C7: `count_hindi_words_in_pdf` is a pure, deterministic function of
its input bytes: two invocations on identical byte buffers (against the
same parsing semantics, with no shared mutable state) return identical
results. -/
theorem c7_deterministic (P : FitzParser) (b1 b2 : List Nat)
    (h : b1 = b2) :
    count_hindi_words_in_pdf P b1 = count_hindi_words_in_pdf P b2 := by
  rw [h]

/-- Witness for C7 on a concrete buffer. -/
theorem c7_witness :
    count_hindi_words_in_pdf (constParser ["राम"]) [1, 2, 3] =
      count_hindi_words_in_pdf (constParser ["राम"]) [1, 2, 3] :=
  c7_deterministic (constParser ["राम"]) [1, 2, 3] [1, 2, 3] rfl

/-- C9: when the upload's filename does not end in ".pdf"
case-insensitively, `handle_pdf_upload` returns the invalid-file-type
error, and the outcome is independent of the bytes and of the parser —
`count_hindi_words_in_pdf` is never invoked and no word count is
produced. -/
theorem c9_invalid_filename_short_circuits (P Q : FitzParser)
    (filename : String) (b1 b2 : List Nat)
    (h : (".pdf".data.isSuffixOf (filename.data.map Char.toLower)) = false) :
    handle_pdf_upload P filename b1 = .invalidFileType ∧
    handle_pdf_upload P filename b1 = handle_pdf_upload Q filename b2 := by
  simp [handle_pdf_upload, h]

/-- Witness for C9: a ".txt" upload is rejected identically for a failing
parser and a succeeding one. -/
theorem c9_witness :
    handle_pdf_upload failParser "notes.txt" [1] = .invalidFileType ∧
    handle_pdf_upload failParser "notes.txt" [1] =
      handle_pdf_upload (constParser ["राम"]) "notes.txt" [2] :=
  c9_invalid_filename_short_circuits failParser (constParser ["राम"])
    "notes.txt" [1] [2] (by decide)

/-- C10: the scanned class is the entire Devanagari block, not only
letters: a run of Devanagari digits ("१२३", U+0967–U+0969) or the lone
danda "।" (U+0964) each count as one word. -/
theorem c10_digits_and_danda_count :
    countHindiWordsInText "१२३" = 1 ∧
    countHindiWordsInText "।" = 1 ∧
    isDevanagari '१' = true ∧
    isDevanagari '।' = true := by
  refine ⟨by decide, by decide, by decide, by decide⟩

end HindiWordCounter
